import Mathlib

/-!
A shallow embedding of the parts of the pynads library (justanr/pynads)
that the verified claims touch, together with theorems settling those
claims.

The embedding covers a fragment of the Python value universe large enough
for every claim: integers, booleans, strings, builtin lists, builtin
tuples, and pynads List instances.  Mapping and set values never occur in
any claim, so they are left outside the fragment; the classification
tables below note where the source has entries for them.
-/

/-- The fragment of Python values the claims range over.
`pylist` is a builtin `list`, `tuple` a builtin `tuple`, and `pnList`
a `pynads.concrete.list.List` (which proxies a tuple of contents). -/
inductive PyVal where
  | int (n : Int)
  | bool (b : Bool)
  | str (s : String)
  | pylist (xs : List PyVal)
  | tuple (xs : List PyVal)
  | pnList (xs : List PyVal)

/- Python `==` on the embedded fragment, `pyEq` below.

Mirrors CPython semantics: `bool` is an `int` subclass so booleans
compare numerically with integers; `list`, `tuple` and `List` compare
elementwise only against the same type (`List.__eq__` in
src/pynads/concrete/list.py returns `NotImplemented` for non-`List`
arguments, and builtin `list.__eq__`/`tuple.__eq__` do likewise, so a
cross-type comparison falls back to identity and yields `False`). -/
mutual

def pyEq : PyVal → PyVal → Bool
  | .int n, .int m => n == m
  | .int n, .bool b => n == (if b then 1 else 0)
  | .bool b, .int m => (if b then (1 : Int) else 0) == m
  | .bool a, .bool b => a == b
  | .str s, .str t => s == t
  | .pylist xs, .pylist ys => pyEqList xs ys
  | .tuple xs, .tuple ys => pyEqList xs ys
  | .pnList xs, .pnList ys => pyEqList xs ys
  | _, _ => false

def pyEqList : List PyVal → List PyVal → Bool
  | [], [] => true
  | x :: xs, y :: ys => pyEq x y && pyEqList xs ys
  | _, _ => false

end

/-- The generic monoidal categories of src/pynads/utils/monoidal.py
(`bool`, `numbers.Number`, `str`, `collections.Sequence`,
`collections.Mapping`, `collections.Set`). -/
inductive GenType where
  | gBool
  | gNumber
  | gStr
  | gSequence
  | gMapping
  | gSet
  deriving DecidableEq

/-- Embeds `_generic_types` from src/pynads/utils/monoidal.py line 39, in source
order: bool before Number, str before Sequence. -/
def genericTypesOrder : List GenType :=
  [.gBool, .gNumber, .gStr, .gSequence, .gMapping, .gSet]

/-- Python `isinstance` restricted to the embedded fragment: a `bool` is
also a `Number` (bool subclasses int), a `str` is also a `Sequence`, and
pynads `List` subclasses `collections.Sequence`. -/
def pyIsinstance : PyVal → GenType → Bool
  | .bool _, .gBool => true
  | .bool _, .gNumber => true
  | .int _, .gNumber => true
  | .str _, .gStr => true
  | .str _, .gSequence => true
  | .pylist _, .gSequence => true
  | .tuple _, .gSequence => true
  | .pnList _, .gSequence => true
  | _, _ => false

/-- Embeds `_builtin_to_generic` from src/pynads/utils/monoidal.py lines 68-79:
an exact-type lookup.  `int` maps to `Number`, `bool` to `bool`, `str` to
`str`, `list` and `tuple` to `Sequence`.  (`float`, `complex`, `dict`,
`set` and `frozenset` rows concern values outside the embedded
fragment.)  The pynads `List` type is not a key, so it falls through to
the structural scan. -/
def builtinToGeneric : PyVal → Option GenType
  | .int _ => some .gNumber
  | .bool _ => some .gBool
  | .str _ => some .gStr
  | .pylist _ => some .gSequence
  | .tuple _ => some .gSequence
  | .pnList _ => none

/-- Embeds `_get_generic_type` from src/pynads/utils/monoidal.py lines 84-96:
the exact-type fast path, then `next(filter(isinstance, generics), None)`
over the ordered generic list. -/
def getGenericType (v : PyVal) : Option GenType :=
  match builtinToGeneric v with
  | some g => some g
  | none => genericTypesOrder.find? (fun g => pyIsinstance v g)

/-- Embeds `_generic_mempties` from src/pynads/utils/monoidal.py lines 41-48.
The `Mapping` and `Set` rows ({} and set()) concern values outside the
embedded fragment and so have no representable image here. -/
def genericMempty : GenType → Option PyVal
  | .gNumber => some (.int 0)
  | .gStr => some (.str "")
  | .gSequence => some (.pylist [])
  | .gBool => some (.bool false)
  | .gMapping => none
  | .gSet => none

/-- Embeds `get_generic_mempty` from src/pynads/utils/monoidal.py lines 150-164:
classify, then look the generic up in the mempty table; `None` models the
TypeError raised when either step fails. -/
def getGenericMempty (v : PyVal) : Option PyVal :=
  match getGenericType v with
  | none => none
  | some g => genericMempty g

/-- Iteration of a Python value, as consumed by `itertools.chain`:
a `str` yields its one-character strings, the sequence types yield their
elements, and numbers are not iterable (`None` models the TypeError). -/
def iterElems : PyVal → Option (List PyVal)
  | .pylist xs => some xs
  | .tuple xs => some xs
  | .pnList xs => some xs
  | .str s => some (s.toList.map (fun c => .str (String.mk [c])))
  | .int _ => none
  | .bool _ => none

/-- Embeds `_iter_but_not_str_or_map` from src/pynads/utils/internal.py lines
14-20: iterable, and neither a string nor a mapping. -/
def iterButNotStrOrMap : PyVal → Bool
  | .pylist _ => true
  | .tuple _ => true
  | .pnList _ => true
  | .str _ => false
  | .int _ => false
  | .bool _ => false

/-- Numeric view used by the generic `Number` mappend (`operator.add`):
booleans add as 0/1 since bool subclasses int. -/
def pyNum : PyVal → Option Int
  | .int n => some n
  | .bool b => some (if b then 1 else 0)
  | _ => none

/-- The `_generic_mappends` table of src/pynads/utils/monoidal.py lines
53-60, with each entry applied to its two arguments.  `Number` uses
`operator.add`, `str` uses `operator.add` (string concatenation),
`Sequence` uses `_seq_mappend` (line 51: `list(chain.from_iterable(seqs))`,
a builtin list), `bool` uses `operator.or_` (embedded for boolean
operands; bitwise-or on mixed operands lies outside the fragment, as do
the `Mapping` and `Set` rows).  `None` models the TypeError Python would
raise when an entry rejects its arguments. -/
def applyGenericMappend : GenType → PyVal → PyVal → Option PyVal
  | .gNumber, a, b =>
      match pyNum a, pyNum b with
      | some n, some m => some (.int (n + m))
      | _, _ => none
  | .gStr, .str s, .str t => some (.str (s ++ t))
  | .gStr, _, _ => none
  | .gSequence, a, b =>
      match iterElems a, iterElems b with
      | some xs, some ys => some (.pylist (xs ++ ys))
      | _, _ => none
  | .gBool, .bool a, .bool b => some (.bool (a || b))
  | .gBool, _, _ => none
  | .gMapping, _, _ => none
  | .gSet, _, _ => none

/-- Embeds `get_generic_mappend` from src/pynads/utils/monoidal.py lines
125-147, already applied to the two operands: classify the first operand,
look its generic mappend up, and apply it; `None` models the TypeError
raised when classification or lookup fails. -/
def getGenericMappendApplied (a b : PyVal) : Option PyVal :=
  match getGenericType a with
  | none => none
  | some g => applyGenericMappend g a b

/-- Embeds `List.mappend` from src/pynads/concrete/list.py lines 218-239:
raise a TypeError unless the other operand is a non-str/Mapping
iterable, else build `List(*chain(self, other))`. -/
def pnListMappend (xs : List PyVal) (other : PyVal) : Option PyVal :=
  if iterButNotStrOrMap other then
    (iterElems other).map (fun ys => .pnList (xs ++ ys))
  else
    none

/-- Embeds `hasattr(x, 'mappend')`: inside the fragment only pynads `List`
instances are Monoid implementations carrying a `mappend` method. -/
def hasMappendAttr : PyVal → Bool
  | .pnList _ => true
  | _ => false

/-- Embeds `mappend` from src/pynads/funcs/monoid.py lines 35-59: dispatch on
the first operand - its own `mappend` method when it is a Monoid
implementation, otherwise the inferred generic mappend.  `None` models a
raised TypeError. -/
def funcsMappend (a b : PyVal) : Option PyVal :=
  if hasMappendAttr a then
    match a with
    | .pnList xs => pnListMappend xs b
    | _ => none
  else
    getGenericMappendApplied a b

/-- Embeds `is_monoid` from src/pynads/utils/monoidal.py lines 180-209: a Monoid
implementation (or anything exposing mempty/mappend/mconcat) counts, else
the value is monoidal exactly when both a generic mempty and a generic
mappend can be inferred for it. -/
def isMonoid (v : PyVal) : Bool :=
  if hasMappendAttr v then
    true
  else
    (getGenericMempty v).isSome &&
      (match getGenericType v with
       | none => false
       | some g => match g with
         | .gNumber => true
         | .gStr => true
         | .gSequence => true
         | .gBool => true
         | .gMapping => true
         | .gSet => true)

/-- Embeds `List.mempty` from src/pynads/concrete/list.py line 80: the bare
empty builtin tuple `()`, not an empty `List`. -/
def pnListMemptyAttr : PyVal := .tuple []

/-- Embeds `List.unit` from src/pynads/concrete/list.py lines 103-122:
`return cls(v)`, and `List.__init__(*vs)` stores the argument tuple, so
the result is always the one-element List whose sole element is `v`
(the docstring is explicit that no iterable splatting is attempted). -/
def pnListUnit (v : PyVal) : PyVal := .pnList [v]

/-- Embeds `State.fmap` from src/pynads/concrete/state.py lines 115-134.  The
inner `state_mapper` runs the wrapped transition, getting
`(result, new_state)`, but then returns `(func(result), state)` - the
pre-run input state - discarding `new_state`, even though the docstring's
Haskell reference instance reads `let (a, s') = runState st s in (f a, s')`. -/
def stateFmap {α β σ : Type} (func : α → β) (runner : σ → α × σ) : σ → β × σ :=
  fun state =>
    let r := runner state
    (func r.1, state)

/-- Embeds `List.mappend` between two pynads Lists (src/pynads/concrete/list.py
lines 218-239) at a fixed element type: the other operand is a List, so
the iterability check passes and the result is the concatenation
`List(*chain(self, other))`. -/
def pnMappend {α : Type} (xs ys : List α) : List α := xs ++ ys

/-- Embeds `reduce(f, xs)` with no initializer on a nonempty list: fold the
tail from the left starting at the head; `None` models the TypeError
Python's `reduce` raises on an empty sequence. -/
def reduceNoInit {α : Type} (f : α → α → α) : List α → Option α
  | [] => none
  | x :: xs => some (xs.foldl f x)

/-- The inherited default `Monoid.mconcat` from src/pynads/abc/monoid.py
lines 134-146, instantiated at the List monoid: raise a TypeError
(`None`) when fewer than two monoids are passed, otherwise
`reduce(cls.mappend, monoids)`. -/
def monoidMconcatDefault {α : Type} (ms : List (List α)) : Option (List α) :=
  if ms.length < 2 then none else reduceNoInit pnMappend ms

/-- Embeds `List.mconcat` from src/pynads/concrete/list.py lines 241-249:
`cls(*chain.from_iterable(monoids))`, one single-pass concatenation. -/
def pnMconcat {α : Type} (ms : List (List α)) : List α := ms.join

/-- Modelled from the spec's words for the refinement comparison of the
mconcat claim: "folds left-to-right using `mappend` seeded by `mempty`".
For the List monoid the seed (mempty) is the empty sequence. -/
def mconcatSpecFold {α : Type} (ms : List (List α)) : List α :=
  ms.foldl pnMappend []

/-- Lookup in a Python dict represented as its association list of
key/value pairs in insertion order (a dict holds each key once; lookup
returns the entry for the key, if present). -/
def dictLookup {K V : Type} [DecidableEq K] (k : K) : List (K × V) → Option V
  | [] => none
  | p :: ps => if p.1 = k then some p.2 else dictLookup k ps

/-- Embeds `Map.apply` from src/pynads/concrete/map.py lines 69-91: intersect
the key sets (`set(self.keys()) & set(other.keys())`) and map each
common key `k` to `self[k](other[k])`; keys present in only one operand
produce no entry. -/
def mapApply {K V W : Type} [DecidableEq K]
    (m : List (K × (V → W))) (n : List (K × V)) : List (K × W) :=
  m.filterMap (fun kf => (dictLookup kf.1 n).map (fun v => (kf.1, kf.2 v)))

/-- Embeds `List.apply` from src/pynads/concrete/list.py lines 136-153:
`[f(x) for f in self for x in other]` - outer loop over the functions,
inner loop over the values. -/
def pnApply {α β : Type} (fs : List (α → β)) (xs : List α) : List β :=
  (fs.map (fun f => xs.map f)).join

/-- Embeds `Writer.__init__` from src/pynads/concrete/writer.py lines 65-70 at
an integer value slot: if the log is not a monoid (per `is_monoid`) it is
stuffed into a singleton pynads List; the pair `(v, log)` is stored. -/
def writerMk (v : Int) (log : PyVal) : Int × PyVal :=
  (v, if isMonoid log then log else .pnList [log])

/-- Embeds `Writer.bind` from src/pynads/concrete/writer.py lines 95-126: run
the bindee on the stored value to get `(v2, log2)`, then rebuild via the
constructor with value `v2` and log `mappend(log, log2)` (the free
`mappend` of src/pynads/funcs/monoid.py); `None` models the TypeError
`mappend` raises on uncombinable logs. -/
def writerBind (w : Int × PyVal) (g : Int → Int × PyVal) : Option (Int × PyVal) :=
  let w2 := g w.1
  (funcsMappend w.2 w2.2).map (fun lg => writerMk w2.1 lg)

/-- A Maybe value: `Just a` or the `Nothing` singleton of
src/pynads/concrete/maybe.py. -/
inductive MaybeV (α : Type) where
  | just (a : α)
  | nothing
  deriving DecidableEq

/-- Embeds `Maybe.__new__` from src/pynads/concrete/maybe.py lines 116-119 with
the default checker `lambda v: v is not None`: a non-None value becomes
`Just`, `None` becomes the `Nothing` singleton.  A possibly-None Python
value is embedded as an `Option`. -/
def maybeNew {α : Type} (v : Option α) : MaybeV α :=
  match v with
  | some x => .just x
  | none => .nothing

/-- Embeds `_Nothing.or_else` from src/pynads/concrete/maybe.py lines 245-247:
`return Maybe(default)` - the default value goes back through Maybe's
presence check rather than being wrapped in Just unconditionally. -/
def nothingOrElse {α : Type} (default : Option α) : MaybeV α :=
  maybeNew default

/-- Embeds `_Nothing.or_call` from src/pynads/concrete/maybe.py lines 249-251:
`return Maybe(func(*args, **kwargs))` - the function's result goes back
through Maybe's presence check. -/
def nothingOrCall {α : Type} (f : Unit → Option α) : MaybeV α :=
  maybeNew (f ())

/-- Maybe's bind (src/pynads/concrete/maybe.py: `Just.bind` runs the
bindee on the value, `_Nothing.bind` propagates the singleton). -/
def maybeBind {α β : Type} (m : MaybeV α) (f : α → MaybeV β) : MaybeV β :=
  match m with
  | .just a => f a
  | .nothing => .nothing

/-- Embeds `cons` from src/pynads/funcs/lifted.py lines 56-67:
`mappend(List(x), xs)` - prepend one element to a pynads List (the List
operand always passes the iterability check, so this is `x` followed by
`xs`). -/
def consF {α : Type} (x : α) (xs : List α) : List α := x :: xs

/-- Embeds `mcons` from src/pynads/funcs/lifted.py lines 70-83:
`p >>= (x: q >>= (xs: p.unit(cons(x, xs))))`; for Maybe, `unit` is
`Just`. -/
def mconsMaybe {α : Type} (p : MaybeV α) (q : MaybeV (List α)) : MaybeV (List α) :=
  maybeBind p (fun x => maybeBind q (fun xs => .just (consF x xs)))

/-- Embeds `sequence` from src/pynads/funcs/lifted.py lines 86-99 instantiated
at Maybe: `reduce(lambda q, p: mcons(p, q), reversed(monads),
monads[0].unit(List()))`.  For Maybe the seed `monads[0].unit(List())` is
`Just(List())` whatever the (existing) head is; the claim only concerns
nonempty argument tuples, for which the head exists. -/
def sequenceMaybe {α : Type} (ms : List (MaybeV α)) : MaybeV (List α) :=
  ms.reverse.foldl (fun q p => mconsMaybe p q) (.just [])

/-- Folding `pnMappend` from an accumulator concatenates everything after
the accumulator. -/
lemma foldl_pnMappend_eq {α : Type} (ms : List (List α)) (acc : List α) :
    ms.foldl pnMappend acc = acc ++ ms.join := by
  induction ms generalizing acc with
  | nil => simp
  | cons m ms ih => simp [pnMappend, ih (acc ++ m)]

/-- C1 counterexample: the claim says `List.unit` of an iterable
non-string non-mapping value makes the elements of the iterable the
List's contents, so `List.unit([1, 2, 3])` would be the three-element
`List(1, 2, 3)`; in the code it is the one-element List holding the
builtin list `[1, 2, 3]` itself. -/
theorem pnListUnit_claim_false :
    ¬ (pnListUnit (.pylist [.int 1, .int 2, .int 3]) =
        .pnList [.int 1, .int 2, .int 3]) := by
  simp [pnListUnit]

/-- C1 (amended): `List.unit(v)` returns a one-element List whose sole
element is `v`, for every value `v` - iterable values included, since
`unit` is `cls(v)` and never splats its argument. -/
theorem pnListUnit_singleton (v : PyVal) :
    pnListUnit v = .pnList [v] ∧
      (iterElems (pnListUnit v)).map List.length = some 1 := by
  exact ⟨rfl, rfl⟩

/-- C2: evaluating the embedded `State.fmap` at the claim's own input.
For the wrapped transition `s ↦ (s, s + 1)` run on initial state `5`,
the inner run yields `(5, 6)`, but the code returns the pre-run input
state `5` as the state component - not `6` as the claim (and the
docstring's Haskell instance `(f a, s')`) requires.  The value component
is `f 5` as claimed. -/
theorem stateFmap_returns_prerun_state :
    stateFmap (fun a : Int => a + 100) (fun s : Int => (s, s + 1)) 5 = (105, 5) ∧
      ((fun s : Int => (s, s + 1)) 5).2 = 6 ∧
      (stateFmap (fun a : Int => a + 100) (fun s : Int => (s, s + 1)) 5).2 ≠ 6 := by
  refine ⟨rfl, rfl, ?_⟩
  decide

/-- C3 counterexample: at the one-element tuple of Lists `(List(1),)`
the inherited default `Monoid.mconcat` raises a TypeError ("Need at
least two values for mconcat") instead of returning the mempty-seeded
fold, and `List.mconcat` - which happily returns `List(1)` there - is
therefore not observationally identical to the inherited default. -/
theorem monoidMconcatDefault_claim_false :
    monoidMconcatDefault [[(1 : Int)]] = none ∧
      mconcatSpecFold [[(1 : Int)]] = [1] ∧
      pnMconcat [[(1 : Int)]] = [1] ∧
      ¬ (monoidMconcatDefault [[(1 : Int)]] =
          some (mconcatSpecFold [[(1 : Int)]])) ∧
      ¬ (monoidMconcatDefault [[(1 : Int)]] = some (pnMconcat [[(1 : Int)]])) := by
  refine ⟨rfl, rfl, rfl, ?_, ?_⟩ <;> simp [monoidMconcatDefault, reduceNoInit]

/-- C3 (amended): `List.mconcat` always equals the left-to-right fold of
`mappend` seeded by `mempty`; the inherited default agrees with both on
every tuple of two or more Lists, but raises a TypeError on tuples of
length zero or one (where `List.mconcat` still returns the fold). -/
theorem mconcat_agreement {α : Type} (ms : List (List α)) :
    pnMconcat ms = mconcatSpecFold ms ∧
      (2 ≤ ms.length → monoidMconcatDefault ms = some (pnMconcat ms)) ∧
      (ms.length < 2 → monoidMconcatDefault ms = none) := by
  refine ⟨?_, ?_, ?_⟩
  · simp [mconcatSpecFold, foldl_pnMappend_eq, pnMconcat]
  · intro h
    match ms with
    | [] => simp at h
    | m :: rest =>
        have hlen : ¬ ((m :: rest).length < 2) := by omega
        unfold monoidMconcatDefault
        rw [if_neg hlen]
        simp [reduceNoInit, pnMconcat, foldl_pnMappend_eq]
  · intro h
    simp [monoidMconcatDefault, h]

/-- C3 witness: the amended statement applied at the concrete pair of
Lists `(List(1), List(2, 3))`. -/
theorem mconcat_agreement_witness :
    monoidMconcatDefault [[(1 : Int)], [2, 3]] = some [1, 2, 3] := by
  have h := (mconcat_agreement [[(1 : Int)], [2, 3]]).2.1 (by decide)
  simpa using h

/-- C4: evaluating the free `mappend` of src/pynads/funcs/monoid.py at
the claim's own inputs with `x = List(1)` and List's `mempty`, the bare
tuple `()`.  `mappend(mempty, x)` dispatches on the tuple through the
generic path and returns the builtin list `[1]`, which Python `==` says
is NOT equal to `List(1)` (cross-type comparison), so the left identity
of the claimed monoid law fails; `mappend(x, mempty)` uses
`List.mappend` and does return a `List` equal to `x`. -/
theorem funcsMappend_left_identity_fails :
    funcsMappend pnListMemptyAttr (.pnList [.int 1]) = some (.pylist [.int 1]) ∧
      pyEq (.pylist [.int 1]) (.pnList [.int 1]) = false ∧
      funcsMappend (.pnList [.int 1]) pnListMemptyAttr = some (.pnList [.int 1]) ∧
      pyEq (.pnList [.int 1]) (.pnList [.int 1]) = true := by
  exact ⟨rfl, rfl, rfl, rfl⟩

/-- When a key has no entry in the right operand, it has none in the
`Map.apply` result either (all of its occurrences are dropped by the key
intersection). -/
lemma dictLookup_mapApply_none {K V W : Type} [DecidableEq K]
    (m : List (K × (V → W))) (n : List (K × V)) (k : K)
    (hn : dictLookup k n = none) :
    dictLookup k (mapApply m n) = none := by
  induction m with
  | nil => simp [mapApply, dictLookup]
  | cons p m ih =>
      cases hmn : dictLookup p.1 n with
      | none => simpa [mapApply, List.filterMap_cons, hmn] using ih
      | some v =>
          by_cases hk : p.1 = k
          · rw [hk] at hmn
            rw [hmn] at hn
            cases hn
          · simpa [mapApply, List.filterMap_cons, hmn, dictLookup, hk] using ih

/-- C5: `Map.apply` keeps exactly the keys present in both operands,
mapping each common key `k` to `m[k](n[k])`; a key present in only one
operand is absent from the result.  Concretely,
`Map({'a': +1}).apply(Map({'a': 1, 'b': 2}))` is `Map({'a': 2})` with
key `'b'` dropped. -/
theorem mapApply_lookup {K V W : Type} [DecidableEq K]
    (m : List (K × (V → W))) (n : List (K × V)) (k : K) :
    dictLookup k (mapApply m n) =
      (dictLookup k m).bind (fun f => (dictLookup k n).map (fun v => f v)) ∧
      mapApply [(("a" : String), fun v : Int => v + 1)] [("a", 1), ("b", 2)] =
        [("a", 2)] := by
  refine ⟨?_, rfl⟩
  induction m with
  | nil => simp [mapApply, dictLookup]
  | cons p m ih =>
      obtain ⟨k1, f⟩ := p
      cases hmn : dictLookup k1 n with
      | some v =>
          by_cases hk : k1 = k
          · subst hk
            simp [mapApply, List.filterMap_cons, hmn, dictLookup]
          · simpa [mapApply, List.filterMap_cons, hmn, dictLookup, hk] using ih
      | none =>
          by_cases hk : k1 = k
          · subst hk
            simpa [mapApply, List.filterMap_cons, hmn, dictLookup]
              using dictLookup_mapApply_none m n k1 hmn
          · simpa [mapApply, List.filterMap_cons, hmn, dictLookup, hk] using ih

/-- Embeds `List.apply` on a cons: the head function applied across all values,
followed by the applications of the remaining functions. -/
lemma pnApply_cons {α β : Type} (f : α → β) (fs : List (α → β)) (xs : List α) :
    pnApply (f :: fs) xs = xs.map f ++ pnApply fs xs := by
  simp [pnApply]

/-- C6: `List.apply` produces `len(fs) * len(xs)` results; the entry at
flat position `i * len(xs) + j` is `fs[i](xs[j])` (outer loop over the
functions, inner loop over the values), and concretely
`List(f1, f2).apply(List(x, y))` is `[f1 x, f1 y, f2 x, f2 y]`. -/
theorem pnApply_shape {α β : Type} (fs : List (α → β)) (xs : List α) :
    (pnApply fs xs).length = fs.length * xs.length ∧
      (∀ i j : Nat, i < fs.length → j < xs.length →
        (pnApply fs xs)[i * xs.length + j]? =
          (fs[i]?).bind (fun f => (xs[j]?).map f)) ∧
      (∀ (f1 f2 : α → β) (x y : α),
        pnApply [f1, f2] [x, y] = [f1 x, f1 y, f2 x, f2 y]) := by
  refine ⟨?_, ?_, fun f1 f2 x y => rfl⟩
  · induction fs with
    | nil => simp [pnApply]
    | cons f fs ih =>
        rw [pnApply_cons]
        simp only [List.length_append, List.length_map, List.length_cons, ih,
          Nat.succ_mul]
        omega
  · induction fs with
    | nil => intro i j hi _; simp at hi
    | cons f fs ih =>
        intro i j hi hj
        match i with
        | 0 =>
            have hlt : 0 * xs.length + j < (xs.map f).length := by
              simpa using hj
            rw [pnApply_cons, List.getElem?_append, if_pos hlt]
            simp [List.getElem?_map]
        | i' + 1 =>
            have hcond : ¬ ((i' + 1) * xs.length + j < (List.map f xs).length) := by
              rw [List.length_map, Nat.succ_mul]
              omega
            have harith : (i' + 1) * xs.length + j - (List.map f xs).length =
                i' * xs.length + j := by
              rw [List.length_map, Nat.succ_mul]
              omega
            rw [pnApply_cons, List.getElem?_append, if_neg hcond, harith,
              ih i' j (by simpa using hi) hj]
            simp

/-- C6 witness: the indexed characterization applied at a concrete pair
of Lists, reading off entry `1 * 2 + 0` of
`List(+10, *3).apply(List(4, 5))`. -/
theorem pnApply_shape_witness :
    (pnApply [fun n : Int => n + 10, fun n => n * 3] [4, 5])[2]? = some 12 := by
  have h := (pnApply_shape [fun n : Int => n + 10, fun n => n * 3] [4, 5]).2.1
    1 0 (by decide) (by decide)
  simpa using h

/-- C8: a boolean classifies as the Boolean generic category, never
Number - under the exact-type fast path, and under the ordered
structural fallback (where bool precedes Number, so the fact that a bool
is also a Number never fires); its inferred generic mempty is `False`
and its inferred generic mappend is logical-OR, not numeric addition;
and in the same ordered fallback a string classifies as the string
category before the generic-sequence one. -/
theorem bool_classifies_boolean :
    ∀ b c : Bool,
      builtinToGeneric (.bool b) = some .gBool ∧
      genericTypesOrder.find? (fun g => pyIsinstance (.bool b) g) = some .gBool ∧
      pyIsinstance (.bool b) .gNumber = true ∧
      getGenericType (.bool b) = some .gBool ∧
      getGenericMempty (.bool b) = some (.bool false) ∧
      getGenericMappendApplied (.bool b) (.bool c) = some (.bool (b || c)) ∧
      getGenericMappendApplied (.bool true) (.bool true) ≠ some (.int 2) ∧
      (∀ s : String,
        genericTypesOrder.find? (fun g => pyIsinstance (.str s) g) = some .gStr) := by
  intro b c
  refine ⟨rfl, rfl, rfl, rfl, rfl, rfl, ?_, fun s => rfl⟩
  intro h
  simp [getGenericMappendApplied, getGenericType, builtinToGeneric,
    applyGenericMappend] at h

/-- Every successful result of the free `mappend` is itself monoidal
(a pynads List, an int, a str, a builtin list, or a bool - all of which
`is_monoid` accepts), so the Writer constructor's coercion leaves a
combined log untouched. -/
lemma isMonoid_of_funcsMappend (a b c : PyVal) (h : funcsMappend a b = some c) :
    isMonoid c = true := by
  cases a <;> cases b <;>
    simp [funcsMappend, hasMappendAttr, getGenericMappendApplied,
      getGenericType, builtinToGeneric, applyGenericMappend, pyNum, iterElems,
      pnListMappend, iterButNotStrOrMap] at h <;>
    subst h <;> rfl

/-- C7: for a Writer with value `a` and (monoidal) log `l`, `bind(g)`
builds the Writer whose value is the value of `g(a)` and whose log is
`mappend(l, log of g(a))`.  Concretely,
`Writer(2, []).bind(x ↦ Writer(x+2, ["added two"]))` is
`Writer(4, ["added two"])`, and binding the same continuation twice
accumulates the log to `["added two", "added two"]` in order. -/
theorem writerBind_spec (a : Int) (l : PyVal) (g : Int → Int × PyVal) (lg : PyVal)
    (hl : isMonoid l = true) (hm : funcsMappend l (g a).2 = some lg) :
    writerBind (writerMk a l) g = some ((g a).1, lg) ∧
      writerBind (writerMk 2 (.pylist []))
          (fun x => (x + 2, .pylist [.str "added two"])) =
        some (4, .pylist [.str "added two"]) ∧
      Option.bind
          (writerBind (writerMk 2 (.pylist []))
            (fun x => (x + 2, .pylist [.str "added two"])))
          (fun w => writerBind w (fun x => (x + 2, .pylist [.str "added two"]))) =
        some (6, .pylist [.str "added two", .str "added two"]) := by
  refine ⟨?_, rfl, rfl⟩
  have hmon := isMonoid_of_funcsMappend l (g a).2 lg hm
  simp [writerBind, writerMk, hl, hm, hmon]

/-- C7 witness: the bind law applied at `Writer(2, [])` with the
continuation `x ↦ Writer(x+2, ["added two"])`. -/
theorem writerBind_spec_witness :
    writerBind (writerMk 2 (.pylist []))
        (fun x => (x + 2, .pylist [.str "added two"])) =
      some (4, .pylist [.str "added two"]) :=
  (writerBind_spec 2 (.pylist []) (fun x => (x + 2, .pylist [.str "added two"]))
    (.pylist [.str "added two"]) rfl rfl).1

/-- Embeds `sequence` folded from the right: reversing then folding left is the
right fold of `mcons`. -/
lemma sequenceMaybe_eq_foldr {α : Type} (ms : List (MaybeV α)) :
    sequenceMaybe ms = ms.foldr (fun p q => mconsMaybe p q) (.just []) := by
  simp [sequenceMaybe, List.foldl_reverse]

/-- Embeds `sequence` over Maybes that are all `Just` collects the wrapped
values in order. -/
lemma sequenceMaybe_all_just {α : Type} (vs : List α) :
    sequenceMaybe (vs.map .just) = .just vs := by
  rw [sequenceMaybe_eq_foldr]
  induction vs with
  | nil => rfl
  | cons v vs ih =>
      rw [List.map_cons, List.foldr_cons, ih]
      rfl

/-- Embeds `sequence` over Maybes containing a `Nothing` collapses to
`Nothing`. -/
lemma sequenceMaybe_has_nothing {α : Type} (ms : List (MaybeV α))
    (h : MaybeV.nothing ∈ ms) : sequenceMaybe ms = .nothing := by
  rw [sequenceMaybe_eq_foldr]
  induction ms with
  | nil => cases h
  | cons m ms ih =>
      rcases List.mem_cons.mp h with hm | hm
      · rw [← hm]
        rfl
      · cases m with
        | nothing => rfl
        | just a =>
            rw [List.foldr_cons, ih hm]
            rfl

/-- C9: for a nonempty tuple of Maybes, `sequence` yields Just of the
List of wrapped values in argument order when all are Just, and Nothing
as soon as any element is Nothing; concretely
`sequence(Just(1), Just(2), Just(3))` is `Just(List(1, 2, 3))` and
`sequence(Just(1), Nothing, Just(3))` is `Nothing`.  (The nonemptiness
hypothesis reflects `monads[0]` in the source, which forbids the empty
call.) -/
theorem sequenceMaybe_spec {α : Type} (ms : List (MaybeV α)) (h : ms ≠ []) :
    (∀ vs : List α, ms = vs.map .just → sequenceMaybe ms = .just vs) ∧
      (MaybeV.nothing ∈ ms → sequenceMaybe ms = .nothing) ∧
      sequenceMaybe [MaybeV.just (1 : Int), .just 2, .just 3] = .just [1, 2, 3] ∧
      sequenceMaybe [MaybeV.just (1 : Int), .nothing, .just 3] = .nothing := by
  refine ⟨?_, ?_, rfl, rfl⟩
  · intro vs hvs
    rw [hvs]
    exact sequenceMaybe_all_just vs
  · exact sequenceMaybe_has_nothing ms

/-- C9 witness: `sequence(Just(1), Just(2))` is `Just(List(1, 2))`. -/
theorem sequenceMaybe_spec_witness :
    sequenceMaybe [MaybeV.just (1 : Int), .just 2] = .just [1, 2] :=
  (sequenceMaybe_spec [MaybeV.just (1 : Int), .just 2] (by simp)).1 [1, 2] rfl

/-- C10: `Nothing.or_else` and `Nothing.or_call` send the alternative
back through Maybe's default presence check instead of wrapping it in
Just unconditionally: a non-None default comes back as `Just(default)`,
while a None default (or a call returning None) comes back as the
Nothing singleton itself, not `Just(None)`. -/
theorem nothing_or_else_recheck {α : Type} (x : α) (f : Unit → Option α) :
    nothingOrElse (some x) = .just x ∧
      nothingOrElse (none : Option α) = .nothing ∧
      (f () = none → nothingOrCall f = .nothing) ∧
      (∀ y, f () = some y → nothingOrCall f = .just y) := by
  refine ⟨rfl, rfl, ?_, ?_⟩
  · intro h
    simp [nothingOrCall, maybeNew, h]
  · intro y h
    simp [nothingOrCall, maybeNew, h]

/-- C10 witness: the recheck behavior at a concrete non-None default and
a concrete None-returning callable. -/
theorem nothing_or_else_recheck_witness :
    nothingOrElse (some (5 : Int)) = .just 5 ∧
      nothingOrCall (fun _ => (none : Option Int)) = .nothing :=
  ⟨(nothing_or_else_recheck (5 : Int) (fun _ => none)).1,
    (nothing_or_else_recheck (5 : Int) (fun _ => (none : Option Int))).2.2.1 rfl⟩
